import Mathlib

/-!
# Queue Transport and Context-Carrier subsystem: a shallow embedding

Verification development for the observability repository. The embedding
covers the shared queue layer (`services/shared/queue`): the message
envelope and its validator, the trace-context carrier helpers, the Redis
transport (local, at-most-once) and the SQS transport (managed,
at-least-once), together with the producer path of the order service and
the consumer path of the notification service.

JSON values are modelled by an inductive `Json`; a raw queue payload is an
`Option Json` (`none` stands for bytes on which `JSON.parse` throws).
-/

namespace Observability

/-- A JSON value: the structured data a queue payload parses to.
Numbers carry a rational value, so a numeric-looking string (`Json.str`)
and an actual number (`Json.num`) are distinct shapes, as in JavaScript. -/
inductive Json where
  | null : Json
  | bool (b : Bool) : Json
  | num (v : Rat) : Json
  | str (s : String) : Json
  | arr (elems : List Json) : Json
  | obj (entries : List (String × Json)) : Json

/-- Whether a JSON value is a string (JavaScript `typeof v === "string"`). -/
def Json.isStringVal : Json → Bool
  | .str _ => true
  | _ => false

/-- Whether a JSON value is an actual number (JavaScript `typeof v === "number"`). -/
def Json.isNumberVal : Json → Bool
  | .num _ => true
  | _ => false

/-- Field `k` of an object is present and holds a string. -/
def fieldIsString (entries : List (String × Json)) (k : String) : Bool :=
  match List.lookup k entries with
  | some (.str _) => true
  | _ => false

/-- Field `k` of an object is present and holds an actual number. -/
def fieldIsNumber (entries : List (String × Json)) (k : String) : Bool :=
  match List.lookup k entries with
  | some (.num _) => true
  | _ => false

/-- The optional `traceContext` field, when present, must be a flat object
whose values are all strings. -/
def carrierFieldOk (entries : List (String × Json)) : Bool :=
  match List.lookup "traceContext" entries with
  | none => true
  | some (.obj tc) => tc.all (fun kv => kv.2.isStringVal)
  | some _ => false

/-- Modelled from the spec: the Message Validator `safeParseMessage` of the
shared queue module. Its implementation is exercised by
`__tests__/IQueueTransport.test.ts` but the function itself is not among the
staged sources; section 4.6 of the spec gives its steps: parse, reject any
result that is not a single mapping, reject when a required field (`type`,
`orderId`, `userId`, `total`) is missing or fails its type check (numeric
fields must be actual numbers), reject a `traceContext` that is not a flat
string-to-string mapping, and pass unknown extra fields through unchanged.
The argument is the `JSON.parse` result (`none` when parsing threw). -/
def safeParseMessage (raw : Option Json) : Option Json :=
  match raw with
  | none => none
  | some (.obj entries) =>
      if fieldIsString entries "type" && fieldIsNumber entries "orderId"
          && fieldIsNumber entries "userId" && fieldIsNumber entries "total"
          && carrierFieldOk entries then
        some (.obj entries)
      else none
  | some _ => none

/-- Modelled from the spec: the consumer loop's decode-or-drop step
(section 4.5): the envelopes a raw payload hands to the business handler
(`[]` when the validator rejects it and the message is dropped). -/
def consumerDecodeStep (raw : Option Json) : List Json :=
  match safeParseMessage raw with
  | some m => [m]
  | none => []

/-- C1: decode rejects a parse failure, a non-mapping top-level value, a
missing required field (`type`, `orderId`, `userId`, `total`, each
enumerated) and a required field of the wrong type (numeric fields must be
actual numbers, not numeric-looking strings); a rejected payload is never
handed to the business handler; when all checks pass, decode returns the
envelope itself, unknown extra fields preserved. -/
theorem validator_decode_contract :
    safeParseMessage none = none
    ∧ safeParseMessage (some Json.null) = none
    ∧ (∀ b, safeParseMessage (some (Json.bool b)) = none)
    ∧ (∀ v, safeParseMessage (some (Json.num v)) = none)
    ∧ (∀ s, safeParseMessage (some (Json.str s)) = none)
    ∧ (∀ es, safeParseMessage (some (Json.arr es)) = none)
    ∧ (∀ entries, List.lookup "type" entries = none →
        safeParseMessage (some (Json.obj entries)) = none)
    ∧ (∀ entries, List.lookup "orderId" entries = none →
        safeParseMessage (some (Json.obj entries)) = none)
    ∧ (∀ entries, List.lookup "userId" entries = none →
        safeParseMessage (some (Json.obj entries)) = none)
    ∧ (∀ entries, List.lookup "total" entries = none →
        safeParseMessage (some (Json.obj entries)) = none)
    ∧ (∀ entries v, List.lookup "type" entries = some v → v.isStringVal = false →
        safeParseMessage (some (Json.obj entries)) = none)
    ∧ (∀ entries v, List.lookup "orderId" entries = some v → v.isNumberVal = false →
        safeParseMessage (some (Json.obj entries)) = none)
    ∧ (∀ entries v, List.lookup "userId" entries = some v → v.isNumberVal = false →
        safeParseMessage (some (Json.obj entries)) = none)
    ∧ (∀ entries v, List.lookup "total" entries = some v → v.isNumberVal = false →
        safeParseMessage (some (Json.obj entries)) = none)
    ∧ (∀ entries, (∃ s, List.lookup "type" entries = some (Json.str s)) →
        (∃ a, List.lookup "orderId" entries = some (Json.num a)) →
        (∃ b, List.lookup "userId" entries = some (Json.num b)) →
        (∃ c, List.lookup "total" entries = some (Json.num c)) →
        carrierFieldOk entries = true →
        safeParseMessage (some (Json.obj entries)) = some (Json.obj entries))
    ∧ (∀ raw, safeParseMessage raw = none → consumerDecodeStep raw = []) := by
  refine ⟨rfl, rfl, fun b => rfl, fun v => rfl, fun s => rfl, fun es => rfl,
    ?_, ?_, ?_, ?_, ?_, ?_, ?_, ?_, ?_, ?_⟩
  · intro entries h
    simp [safeParseMessage, fieldIsString, h]
  · intro entries h
    simp [safeParseMessage, fieldIsNumber, h]
  · intro entries h
    simp [safeParseMessage, fieldIsNumber, h]
  · intro entries h
    simp [safeParseMessage, fieldIsNumber, h]
  · intro entries v hv hnot
    cases v <;> simp_all [safeParseMessage, fieldIsString, Json.isStringVal]
  · intro entries v hv hnot
    cases v <;> simp_all [safeParseMessage, fieldIsNumber, Json.isNumberVal]
  · intro entries v hv hnot
    cases v <;> simp_all [safeParseMessage, fieldIsNumber, Json.isNumberVal]
  · intro entries v hv hnot
    cases v <;> simp_all [safeParseMessage, fieldIsNumber, Json.isNumberVal]
  · rintro entries ⟨s, hs⟩ ⟨a, ha⟩ ⟨b, hb⟩ ⟨c, hc⟩ hcar
    simp [safeParseMessage, fieldIsString, fieldIsNumber, hs, ha, hb, hc, hcar,
      Json.isStringVal, Json.isNumberVal]
  · intro raw h
    simp [consumerDecodeStep, h]

/-! ## Context Carrier Codec

Modelled from the spec: the repository delegates carrier encoding to the
OpenTelemetry W3C trace-context propagator (`propagation.inject` /
`propagation.extract`), whose code is not among the staged sources.
Sections 4.1 and 6 of the spec fix the wire form: a single `traceparent`
key holding `<version>-<trace-id>-<parent-id>-<flags>`. Textual values are
modelled as character lists. -/

/-- One trace context: the identifiers that causally link a new unit of
work to an existing distributed trace. -/
structure SpanContext where
  traceId : List Char
  spanId : List Char
  traceFlags : List Char

/-- The composite `traceparent` value `00-<trace-id>-<parent-id>-<flags>`. -/
def traceparentValue (c : SpanContext) : List Char :=
  '0' :: '0' :: '-' :: (c.traceId ++ '-' :: (c.spanId ++ '-' :: c.traceFlags))

/-- Modelled from the spec: `propagation.inject` serializes the active
context into a fresh flat carrier mapping under the `traceparent` key. -/
def injectContext (c : SpanContext) : List (String × List Char) :=
  [("traceparent", traceparentValue c)]

/-- Split a character list on the dash separators of a `traceparent` value. -/
def splitOnDash : List Char → List (List Char)
  | [] => [[]]
  | ch :: rest =>
      if ch = '-' then [] :: splitOnDash rest
      else
        match splitOnDash rest with
        | [] => [[ch]]
        | grp :: more => (ch :: grp) :: more

/-- Modelled from the spec: `propagation.extract` reads the `traceparent`
key back into a context; an absent or unrecognizable carrier yields `none`,
standing for the fresh-root ("no parent") context. -/
def extractContext (carrier : List (String × List Char)) : Option SpanContext :=
  match List.lookup "traceparent" carrier with
  | none => none
  | some v =>
      match splitOnDash v with
      | [_, tid, sid, fl] => some ⟨tid, sid, fl⟩
      | _ => none

theorem splitOnDash_no_dash (a : List Char) (h : '-' ∉ a) : splitOnDash a = [a] := by
  induction a with
  | nil => rfl
  | cons ch rest ih =>
      have hch : ch ≠ '-' := fun e => h (e ▸ List.mem_cons_self ch rest)
      have hrest : '-' ∉ rest := fun e => h (List.mem_cons_of_mem ch e)
      simp [splitOnDash, hch, ih hrest]

theorem splitOnDash_append (a rest : List Char) (h : '-' ∉ a) :
    splitOnDash (a ++ '-' :: rest) = a :: splitOnDash rest := by
  induction a with
  | nil => simp [splitOnDash]
  | cons ch tl ih =>
      have hch : ch ≠ '-' := fun e => h (e ▸ List.mem_cons_self ch tl)
      have htl : '-' ∉ tl := fun e => h (List.mem_cons_of_mem ch e)
      rw [List.cons_append]
      rw [splitOnDash]
      simp only [hch, if_false]
      rw [ih htl]

/-- C3: extracting the carrier produced by `inject` restores a context with
the same trace identifier, so a span created under the restored context
belongs to the same trace as one created directly under the original. -/
theorem trace_context_roundtrip (c : SpanContext)
    (ht : '-' ∉ c.traceId) (hs : '-' ∉ c.spanId) (hf : '-' ∉ c.traceFlags) :
    ∃ r, extractContext (injectContext c) = some r ∧ r.traceId = c.traceId := by
  refine ⟨⟨c.traceId, c.spanId, c.traceFlags⟩, ?_, rfl⟩
  have hsplit : splitOnDash (traceparentValue c)
      = [['0', '0'], c.traceId, c.spanId, c.traceFlags] := by
    have h0 : splitOnDash (c.traceId ++ '-' :: (c.spanId ++ '-' :: c.traceFlags))
        = c.traceId :: splitOnDash (c.spanId ++ '-' :: c.traceFlags) :=
      splitOnDash_append _ _ ht
    have h1 : splitOnDash (c.spanId ++ '-' :: c.traceFlags)
        = c.spanId :: splitOnDash c.traceFlags :=
      splitOnDash_append _ _ hs
    have h2 : splitOnDash c.traceFlags = [c.traceFlags] :=
      splitOnDash_no_dash _ hf
    simp [traceparentValue, splitOnDash, h0, h1, h2]
  simp [extractContext, injectContext, hsplit]

/-- Witness for C3 at a concrete hexadecimal context. -/
theorem trace_context_roundtrip_witness :
    ∃ r, extractContext (injectContext
        ⟨['a', 'b', 'c', '1'], ['d', 'e', 'f', '2'], ['0', '1']⟩) = some r
      ∧ r.traceId = ['a', 'b', 'c', '1'] :=
  trace_context_roundtrip ⟨['a', 'b', 'c', '1'], ['d', 'e', 'f', '2'], ['0', '1']⟩
    (by decide) (by decide) (by decide)

/-! ## Local Transport (RedisTransport.ts)

`publish` does `lPush` (prepend at the head of the Redis list) and the
consume loop does `brPop` (blocking pop from the tail), so the list is
drained strictly first-in first-out. -/

/-- `RedisTransport.publish`: `lPush` prepends the serialized message. -/
def lPush {α : Type} (m : α) (q : List α) : List α := m :: q

/-- `brPop`: take one element from the tail of the list, `none` when the
wait times out on an empty list. -/
def brPop {α : Type} (q : List α) : Option (α × List α) :=
  match q.getLast? with
  | none => none
  | some m => some (m, q.dropLast)

theorem brPop_length {α : Type} {q : List α} {m : α} {rest : List α}
    (h : brPop q = some (m, rest)) : rest.length < q.length := by
  unfold brPop at h
  cases hq : q.getLast? with
  | none => rw [hq] at h; cases h
  | some x =>
      rw [hq] at h
      have hq_ne : q ≠ [] := by
        intro e
        subst e
        simp at hq
      cases h
      have : 0 < q.length := List.length_pos.mpr hq_ne
      simp [List.length_dropLast]
      omega

theorem brPop_concat {α : Type} (q : List α) (m : α) :
    brPop (q ++ [m]) = some (m, q) := by
  simp [brPop, List.getLast?_concat, List.dropLast_concat]

/-- Publishing a sequence of messages in order (repeated `lPush`). -/
def publishSeq {α : Type} (ms : List α) (q : List α) : List α :=
  ms.foldl (fun acc m => lPush m acc) q

/-- Draining the list with repeated `brPop`: the order in which the
consume loop hands stored messages to the handler. -/
def consumeOrder {α : Type} (q : List α) : List α :=
  match h : brPop q with
  | none => []
  | some (m, rest) => m :: consumeOrder rest
termination_by q.length
decreasing_by exact brPop_length h

theorem consumeOrder_eq_reverse {α : Type} (q : List α) : consumeOrder q = q.reverse := by
  induction q using List.reverseRecOn with
  | nil => rw [consumeOrder]; simp [brPop]
  | append_singleton as a ih =>
      rw [consumeOrder, brPop_concat]
      simp [ih]

theorem publishSeq_eq {α : Type} (ms q : List α) :
    publishSeq ms q = ms.reverse ++ q := by
  induction ms generalizing q with
  | nil => simp [publishSeq]
  | cons m tl ih =>
      simp only [publishSeq, List.foldl_cons] at *
      rw [ih (lPush m q)]
      simp [lPush]

/-- C7: messages published in the order `m1, m2, m3` to the Local Transport
are handed to the handler in exactly that order, after whatever was already
queued (strict FIFO relative to publish order). -/
theorem local_transport_fifo {α : Type} (m1 m2 m3 : α) (q : List α) :
    consumeOrder (publishSeq [m1, m2, m3] q) = consumeOrder q ++ [m1, m2, m3] := by
  rw [publishSeq_eq, consumeOrder_eq_reverse, consumeOrder_eq_reverse]
  simp

/-! ## The Local Transport consume loop

`RedisTransport.consume`: each iteration pops one raw payload from the
store, parses it and runs the handler inside a `try`; a parse error or a
handler error is caught, logged, and the loop continues after a short
delay. The popped payload is gone from the store in every case. A raw
payload is an `Option Json` (`none` when `JSON.parse` throws); the handler
returns `true` for success and `false` for a thrown error. -/

/-- The observable outcome of one iteration of `RedisTransport.consume`. -/
structure RedisIterResult where
  queueAfter : List (Option Json)
  handled : Option Json
  errorLogged : Bool
  running : Bool

/-- One iteration of `RedisTransport.consume`: `brPop`, then parse, then
handler, the whole body wrapped in the loop's `try`/`catch`. -/
def redisIterate (handler : Json → Bool) (q : List (Option Json)) : RedisIterResult :=
  match brPop q with
  | none => ⟨q, none, false, true⟩
  | some (body, rest) =>
      match body with
      | none => ⟨rest, none, true, true⟩
      | some msg =>
          if handler msg then ⟨rest, some msg, false, true⟩
          else ⟨rest, some msg, true, true⟩

/-- A full drain of the store by the consume loop: the messages handed to
the handler in order, paired with the number of iterations that logged an
error (parse failure or handler failure). -/
def redisRun (handler : Json → Bool) (q : List (Option Json)) : List Json × Nat :=
  match h : brPop q with
  | none => ([], 0)
  | some (body, rest) =>
      match body with
      | none =>
          let r := redisRun handler rest
          (r.1, r.2 + 1)
      | some msg =>
          if handler msg then
            let r := redisRun handler rest
            (msg :: r.1, r.2)
          else
            let r := redisRun handler rest
            (msg :: r.1, r.2 + 1)
termination_by q.length
decreasing_by all_goals exact brPop_length h

theorem redisRun_fst (handler : Json → Bool) (q : List (Option Json)) :
    (redisRun handler q).1 = q.reverse.filterMap id := by
  induction q using List.reverseRecOn with
  | nil => rw [redisRun]; simp [brPop]
  | append_singleton as a ih =>
      have hpop := brPop_concat as a
      rw [redisRun]
      split
      · next heq => rw [hpop] at heq; cases heq
      · next body rest heq =>
          rw [hpop] at heq
          injection heq with heq2
          injection heq2 with hb hr
          subst hb
          subst hr
          cases a with
          | none => simpa using ih
          | some msg =>
              by_cases h : handler msg <;> simp [h, ih]

/-- C8: a popped message is removed from the Local Transport's store before
the handler runs and is never requeued: after the pop the store holds
exactly the remaining messages whatever the handler's outcome, the loop
keeps running, and over a full drain every stored message reaches the
handler exactly once, in an order independent of which handler invocations
fail (a failed message is simply lost). -/
theorem local_transport_pop_is_final (handler : Json → Bool)
    (body : Option Json) (front : List (Option Json)) :
    (redisIterate handler (front ++ [body])).queueAfter = front
    ∧ (redisIterate handler (front ++ [body])).running = true
    ∧ (∀ q, (redisRun handler q).1 = q.reverse.filterMap id)
    ∧ (∀ other : Json → Bool, ∀ q, (redisRun handler q).1 = (redisRun other q).1) := by
  have hpop := brPop_concat front body
  refine ⟨?_, ?_, redisRun_fst handler, ?_⟩
  · cases body with
    | none => simp [redisIterate, hpop]
    | some msg => by_cases h : handler msg <;> simp [redisIterate, hpop, h]
  · cases body with
    | none => simp [redisIterate, hpop]
    | some msg => by_cases h : handler msg <;> simp [redisIterate, hpop, h]
  · intro other q
    rw [redisRun_fst, redisRun_fst]

/-! ## Managed-Queue Transport (SQSTransport)

`SQSTransport.consume` long-polls with `ReceiveMessageCommand`
(`MaxNumberOfMessages: 10`), runs each received message through a
per-message `try` that parses the body, invokes the handler and, only when
both succeed, issues a `DeleteMessageCommand`; a failure leaves the message
in the queue, where it becomes visible again after the backend's
visibility timeout. The backend state is modelled as the visible messages
plus the received-but-not-deleted (in-flight) ones; a message carries its
receipt handle and its body's parse result. -/

/-- A message held by the SQS backend: its receipt handle and the result
of parsing its body (`none` when `JSON.parse` throws on it). -/
structure SqsMessage where
  receipt : Nat
  body : Option Json

/-- The SQS backend's state: messages a receive call can return, and
messages received but not yet deleted (hidden until the visibility
timeout elapses). -/
structure SqsState where
  visible : List SqsMessage
  inflight : List SqsMessage

/-- `ReceiveMessageCommand` with `MaxNumberOfMessages: 10`: up to ten
visible messages are returned and become in-flight. -/
def sqsReceive (s : SqsState) : List SqsMessage × SqsState :=
  (s.visible.take 10, ⟨s.visible.drop 10, s.inflight ++ s.visible.take 10⟩)

/-- `DeleteMessageCommand`: remove the in-flight message with the given
receipt handle. -/
def sqsDelete (receipt : Nat) (s : SqsState) : SqsState :=
  ⟨s.visible, s.inflight.filter (fun m => m.receipt != receipt)⟩

/-- The batch loop of `SQSTransport.consume`: each message is processed
inside its own `try`/`catch` (parse, handler, delete on success; any
failure is only logged). Returns the backend state afterwards, the
envelopes handed to the handler in order, and the receipts deleted. -/
def sqsProcessBatch (handler : Json → Bool) (batch : List SqsMessage) (s : SqsState) :
    SqsState × List Json × List Nat :=
  match batch with
  | [] => (s, [], [])
  | m :: rest =>
      match m.body with
      | none => sqsProcessBatch handler rest s
      | some msg =>
          if handler msg then
            let r := sqsProcessBatch handler rest (sqsDelete m.receipt s)
            (r.1, msg :: r.2.1, m.receipt :: r.2.2)
          else
            let r := sqsProcessBatch handler rest s
            (r.1, msg :: r.2.1, r.2.2)

/-- The visibility timeout elapsing: every in-flight message becomes
visible to receive calls again. -/
def sqsExpire (s : SqsState) : SqsState :=
  ⟨s.visible ++ s.inflight, []⟩

/-- The receipt handles of every message the backend still holds. -/
def sqsReceipts (s : SqsState) : List Nat :=
  (s.visible ++ s.inflight).map SqsMessage.receipt

/-- One observable step of the consume loop against the backend: either a
receive followed by the batch processing, or the visibility timeout
elapsing. The subsystem publishes nothing during consumption, so these are
the only transitions. -/
inductive SqsStep (handler : Json → Bool) : SqsState → SqsState → Prop where
  | receiveProcess (s : SqsState) :
      SqsStep handler s (sqsProcessBatch handler (sqsReceive s).1 (sqsReceive s).2).1
  | visibilityElapse (s : SqsState) :
      SqsStep handler s (sqsExpire s)

theorem sqsProcessBatch_state_receipts (handler : Json → Bool)
    (batch : List SqsMessage) (s : SqsState) :
    ∀ r, r ∈ sqsReceipts (sqsProcessBatch handler batch s).1 → r ∈ sqsReceipts s := by
  induction batch generalizing s with
  | nil => intro r hr; exact hr
  | cons m rest ih =>
      intro r hr
      simp only [sqsProcessBatch] at hr
      cases hm : m.body with
      | none =>
          rw [hm] at hr
          exact ih s r hr
      | some msg =>
          rw [hm] at hr
          by_cases h : handler msg
          · simp only [h, if_true] at hr
            have := ih (sqsDelete m.receipt s) r hr
            simp only [sqsReceipts, sqsDelete, List.map_append, List.mem_append,
              List.mem_map] at this ⊢
            rcases this with hv | ⟨x, hx, hxr⟩
            · exact Or.inl hv
            · exact Or.inr ⟨x, List.mem_of_mem_filter hx, hxr⟩
          · simp only [h, if_false] at hr
            exact ih s r hr

theorem sqsStep_receipts_subset {handler : Json → Bool} {s s' : SqsState}
    (h : SqsStep handler s s') :
    ∀ r, r ∈ sqsReceipts s' → r ∈ sqsReceipts s := by
  cases h with
  | receiveProcess =>
      intro r hr
      have h2 := sqsProcessBatch_state_receipts handler (sqsReceive s).1 (sqsReceive s).2 r hr
      simp only [sqsReceipts, sqsReceive] at h2
      simp only [sqsReceipts]
      rcases List.mem_map.mp h2 with ⟨x, hx, hxr⟩
      refine List.mem_map.mpr ⟨x, ?_, hxr⟩
      rcases List.mem_append.mp hx with h1 | h1
      · exact List.mem_append.mpr (Or.inl (List.drop_subset _ _ h1))
      · rcases List.mem_append.mp h1 with h2a | h2b
        · exact List.mem_append.mpr (Or.inr h2a)
        · exact List.mem_append.mpr (Or.inl (List.take_subset _ _ h2b))
  | visibilityElapse =>
      intro r hr
      simp only [sqsReceipts, sqsExpire, List.append_nil] at hr ⊢
      exact hr

theorem sqsSteps_receipts_subset {handler : Json → Bool} {s s' : SqsState}
    (h : Relation.ReflTransGen (SqsStep handler) s s') :
    ∀ r, r ∈ sqsReceipts s' → r ∈ sqsReceipts s := by
  induction h with
  | refl => intro r hr; exact hr
  | tail _ hstep ih =>
      intro r hr
      exact ih r (sqsStep_receipts_subset hstep r hr)

theorem sqsReceipts_nil_visible {s : SqsState}
    (h : ∀ r, r ∈ sqsReceipts s → False) : s.visible = [] := by
  cases hv : s.visible with
  | nil => rfl
  | cons m rest =>
      exfalso
      apply h m.receipt
      simp [sqsReceipts, hv]

/-- C4: for a message received by the Managed-Queue Transport's consume
loop, handler success leads to an explicit delete of exactly that message,
after which no reachable state of the loop lets a receive call observe it
again; handler failure issues no delete, the message stays held by the
backend, and once the visibility timeout elapses a subsequent receive call
returns it again (at-least-once delivery). -/
theorem managed_transport_ack_protocol (handler : Json → Bool) (r0 : Nat) (msg : Json) :
    (sqsReceive ⟨[⟨r0, some msg⟩], []⟩).1 = [⟨r0, some msg⟩]
    ∧ (handler msg = true →
        (sqsProcessBatch handler [⟨r0, some msg⟩] ⟨[], [⟨r0, some msg⟩]⟩).2.2 = [r0]
        ∧ (sqsProcessBatch handler [⟨r0, some msg⟩] ⟨[], [⟨r0, some msg⟩]⟩).1 = ⟨[], []⟩
        ∧ (∀ s', Relation.ReflTransGen (SqsStep handler) ⟨[], []⟩ s' →
            (sqsReceive s').1 = []))
    ∧ (handler msg = false →
        (sqsProcessBatch handler [⟨r0, some msg⟩] ⟨[], [⟨r0, some msg⟩]⟩).2.2 = []
        ∧ (sqsProcessBatch handler [⟨r0, some msg⟩] ⟨[], [⟨r0, some msg⟩]⟩).1.inflight
            = [⟨r0, some msg⟩]
        ∧ (sqsReceive (sqsExpire
            (sqsProcessBatch handler [⟨r0, some msg⟩] ⟨[], [⟨r0, some msg⟩]⟩).1)).1
            = [⟨r0, some msg⟩]) := by
  refine ⟨rfl, ?_, ?_⟩
  · intro h
    refine ⟨by simp [sqsProcessBatch, h, sqsDelete], by simp [sqsProcessBatch, h, sqsDelete], ?_⟩
    intro s' hreach
    have hsub := sqsSteps_receipts_subset hreach
    have hvis : s'.visible = [] := by
      apply sqsReceipts_nil_visible
      intro r hr
      have := hsub r hr
      simp [sqsReceipts] at this
    simp [sqsReceive, hvis]
  · intro h
    refine ⟨by simp [sqsProcessBatch, h], by simp [sqsProcessBatch, h], ?_⟩
    simp [sqsProcessBatch, h, sqsExpire, sqsReceive]

/-- C10: within one received batch, each message's fate is a pointwise
function of that message alone: every message with a parseable body is
handed to the handler (in batch order), and exactly the messages whose
body parses and whose handler invocation succeeds are deleted — an earlier
handler error or unparseable body never suppresses the processing or the
delete-on-success of a later message of the same batch. -/
theorem managed_batch_isolation (handler : Json → Bool)
    (batch : List SqsMessage) (s : SqsState) :
    (sqsProcessBatch handler batch s).2.1 = batch.filterMap SqsMessage.body
    ∧ (sqsProcessBatch handler batch s).2.2
        = (batch.filter (fun m =>
            match m.body with
            | some msg => handler msg
            | none => false)).map SqsMessage.receipt := by
  induction batch generalizing s with
  | nil => exact ⟨rfl, rfl⟩
  | cons m rest ih =>
      cases hm : m.body with
      | none =>
          refine ⟨?_, ?_⟩
          · simp only [sqsProcessBatch, hm, List.filterMap_cons]
            exact (ih s).1
          · simp only [sqsProcessBatch, hm, List.filter_cons]
            simpa using (ih s).2
      | some msg =>
          by_cases h : handler msg
          · refine ⟨?_, ?_⟩
            · simp only [sqsProcessBatch, hm, h, if_true, List.filterMap_cons]
              exact congrArg (msg :: ·) (ih (sqsDelete m.receipt s)).1
            · simp only [sqsProcessBatch, hm, h, if_true, List.filter_cons]
              simpa using (ih (sqsDelete m.receipt s)).2
          · refine ⟨?_, ?_⟩
            · simp only [sqsProcessBatch, hm, h, if_false, List.filterMap_cons]
              exact congrArg (msg :: ·) (ih s).1
            · simp only [sqsProcessBatch, hm, h, if_false, List.filter_cons]
              simpa using (ih s).2

/-- A raw payload on which `JSON.parse` throws, held under receipt 7. -/
def poisonMessage : SqsMessage := ⟨7, none⟩

/-- C2 counterexample: on the Managed-Queue Transport a malformed message
is not dropped and is retried by this subsystem. Starting from a backend
holding only the malformed message, the consume loop receives it, fails to
parse it, issues no delete — the message is still held in flight — and
once the visibility timeout elapses the next receive call returns the very
same message again. -/
theorem poison_retried_on_managed_transport :
    (sqsProcessBatch (fun _ => true)
        (sqsReceive ⟨[poisonMessage], []⟩).1
        (sqsReceive ⟨[poisonMessage], []⟩).2).2.2 = []
    ∧ (sqsProcessBatch (fun _ => true)
        (sqsReceive ⟨[poisonMessage], []⟩).1
        (sqsReceive ⟨[poisonMessage], []⟩).2).1.inflight = [poisonMessage]
    ∧ (sqsReceive (sqsExpire
        (sqsProcessBatch (fun _ => true)
          (sqsReceive ⟨[poisonMessage], []⟩).1
          (sqsReceive ⟨[poisonMessage], []⟩).2).1)).1 = [poisonMessage] :=
  ⟨rfl, rfl, rfl⟩

/-- C2 as amended: a raw message whose decode fails is never handed to the
business handler on either transport, and the outcome is logged; on the
Local Transport the message was already removed by the pop, so it is
dropped for good and never redelivered, while the consume loop goes on; on
the Managed-Queue Transport the malformed message is not deleted, so it
stays with the backend and is received again by the loop after each
visibility timeout (retried, though still never handed to the handler). -/
theorem poison_message_disposition (handler : Json → Bool)
    (front : List (Option Json)) (r0 : Nat) :
    (redisIterate handler (front ++ [(none : Option Json)])).queueAfter = front
    ∧ (redisIterate handler (front ++ [(none : Option Json)])).handled = none
    ∧ (redisIterate handler (front ++ [(none : Option Json)])).errorLogged = true
    ∧ (redisIterate handler (front ++ [(none : Option Json)])).running = true
    ∧ (∀ q, (redisRun handler q).1 = q.reverse.filterMap id)
    ∧ (sqsProcessBatch handler
        (sqsReceive ⟨[⟨r0, none⟩], []⟩).1 (sqsReceive ⟨[⟨r0, none⟩], []⟩).2).2.1 = []
    ∧ (sqsProcessBatch handler
        (sqsReceive ⟨[⟨r0, none⟩], []⟩).1 (sqsReceive ⟨[⟨r0, none⟩], []⟩).2).2.2 = []
    ∧ (sqsReceive (sqsExpire
        (sqsProcessBatch handler
          (sqsReceive ⟨[⟨r0, none⟩], []⟩).1
          (sqsReceive ⟨[⟨r0, none⟩], []⟩).2).1)).1 = [⟨r0, none⟩] := by
  have hpop := brPop_concat front (none : Option Json)
  refine ⟨?_, ?_, ?_, ?_, redisRun_fst handler, ?_, ?_, ?_⟩
  · simp [redisIterate, hpop]
  · simp [redisIterate, hpop]
  · simp [redisIterate, hpop]
  · simp [redisIterate, hpop]
  · simp [sqsReceive, sqsProcessBatch]
  · simp [sqsReceive, sqsProcessBatch]
  · simp [sqsReceive, sqsProcessBatch, sqsExpire]

/-! ## Message envelope and the producer path

`QueueMessage` (IQueueTransport.ts) and the publish path of the order
service's `POST /orders` handler, which builds the notification through
the shared `injectTraceContext` helper before handing it to the Transport. -/

/-- The `QueueMessage` interface of IQueueTransport.ts. The `traceContext`
carrier field is optional; a producer-built envelope leaves it `none`. -/
structure QueueMessage where
  type : String
  orderId : Int
  userId : Int
  userName : String
  total : Rat
  timestamp : String
  traceContext : Option (List (String × List Char)) := none

/-- `injectTraceContext` of IQueueTransport.ts: build a fresh carrier,
inject the active trace context into it, and return the message with the
carrier attached (the input message is not mutated). The active context is
threaded as an explicit argument. -/
def injectTraceContext (active : SpanContext) (m : QueueMessage) : QueueMessage :=
  { m with traceContext := some (injectContext active) }

/-- The notification the order service's `POST /orders` handler builds for
a created order: a carrier-less envelope of type `order_created`. -/
def orderCreatedNotification (orderId userId : Int) (userName : String)
    (total : Rat) (ts : String) : QueueMessage :=
  ⟨"order_created", orderId, userId, userName, total, ts, none⟩

/-- The handler's publish path: `injectTraceContext` is applied to the
carrier-less notification and the result is handed to
`queue.publish`, which pushes it onto the transport's store. -/
def publishOrderNotification (active : SpanContext) (orderId userId : Int)
    (userName : String) (total : Rat) (ts : String)
    (q : List QueueMessage) : List QueueMessage :=
  lPush (injectTraceContext active (orderCreatedNotification orderId userId userName total ts)) q

/-- C5: the producer submits a carrier-less envelope; before that envelope
reaches the Transport the subsystem's `injectTraceContext` attaches the
carrier produced by the Codec's inject on the active context, so the one
message the Transport stores carries exactly the injected carrier and the
producer's fields unchanged. -/
theorem producer_carrier_injection (active : SpanContext) (orderId userId : Int)
    (userName : String) (total : Rat) (ts : String) (q : List QueueMessage) :
    (orderCreatedNotification orderId userId userName total ts).traceContext = none
    ∧ publishOrderNotification active orderId userId userName total ts q
        = injectTraceContext active (orderCreatedNotification orderId userId userName total ts)
          :: q
    ∧ (injectTraceContext active
        (orderCreatedNotification orderId userId userName total ts)).traceContext
        = some (injectContext active)
    ∧ (injectTraceContext active
        (orderCreatedNotification orderId userId userName total ts)).type = "order_created"
    ∧ (injectTraceContext active
        (orderCreatedNotification orderId userId userName total ts)).orderId = orderId
    ∧ (injectTraceContext active
        (orderCreatedNotification orderId userId userName total ts)).userId = userId
    ∧ (injectTraceContext active
        (orderCreatedNotification orderId userId userName total ts)).userName = userName
    ∧ (injectTraceContext active
        (orderCreatedNotification orderId userId userName total ts)).total = total
    ∧ (injectTraceContext active
        (orderCreatedNotification orderId userId userName total ts)).timestamp = ts :=
  ⟨rfl, rfl, rfl, rfl, rfl, rfl, rfl, rfl, rfl⟩

/-! ## Managed Transport construction (SQSTransport constructor) -/

/-- The configuration the SQSTransport constructor assembles from the
environment. -/
structure SQSTransportConfig where
  region : String
  endpoint : Option String
  queueUrl : String

/-- The SQSTransport constructor: region defaults to `us-east-1`, the
optional `SQS_ENDPOINT` allows a LocalStack override, and a missing or
empty `SQS_QUEUE_URL` makes construction throw before any publish or
consume call can exist (publish and consume take the constructed
configuration as an argument). -/
def sqsTransportInit (env : String → Option String) : Except String SQSTransportConfig :=
  let region := (env "AWS_REGION").getD "us-east-1"
  let endpoint := env "SQS_ENDPOINT"
  let queueUrl := (env "SQS_QUEUE_URL").getD ""
  if queueUrl = "" then
    Except.error "[SQSTransport] SQS_QUEUE_URL environment variable is required"
  else
    Except.ok ⟨region, endpoint, queueUrl⟩

/-- C6: constructing the Managed-Queue Transport without `SQS_QUEUE_URL`
(unset, or set to the empty string) fails with a construction error, so no
publish or consume call can be attempted on it; with a non-empty queue url
configured, construction succeeds and records that url. -/
theorem sqs_construction_requires_queue_url (env : String → Option String) :
    (env "SQS_QUEUE_URL" = none →
      sqsTransportInit env
        = Except.error "[SQSTransport] SQS_QUEUE_URL environment variable is required")
    ∧ (env "SQS_QUEUE_URL" = some "" →
      sqsTransportInit env
        = Except.error "[SQSTransport] SQS_QUEUE_URL environment variable is required")
    ∧ (∀ url, env "SQS_QUEUE_URL" = some url → url ≠ "" →
      sqsTransportInit env
        = Except.ok ⟨(env "AWS_REGION").getD "us-east-1", env "SQS_ENDPOINT", url⟩) := by
  refine ⟨?_, ?_, ?_⟩
  · intro h
    simp [sqsTransportInit, h]
  · intro h
    simp [sqsTransportInit, h]
  · intro url h hne
    simp [sqsTransportInit, h, hne]

/-! ## Shutdown (close) and loop cancellation -/

/-- A transport handle: the running flag read by the consume loop and the
liveness of the underlying backend client. -/
structure TransportHandle where
  running : Bool
  connOpen : Bool

/-- `close()` of either transport: clear the running flag and release the
backend client (`client.quit()` for Redis, `client.destroy()` for SQS). -/
def closeTransport (_h : TransportHandle) : TransportHandle :=
  ⟨false, false⟩

/-- The consume loop with the stop flag made explicit: `checks` counts how
many wait-boundary checks still observe `running = true`; `close()` makes
every later check observe `false`, so the loop runs at most `checks` full
iterations (each iteration pops, parses and handles one message to
completion before the flag is read again) and then exits. Returns the
messages handed to the handler. -/
def consumeLoopRun (handler : Json → Bool) : Nat → List (Option Json) → List Json
  | 0, _ => []
  | checks + 1, q =>
      match brPop q with
      | none => consumeLoopRun handler checks q
      | some (body, rest) =>
          match body with
          | none => consumeLoopRun handler checks rest
          | some msg =>
              if handler msg then msg :: consumeLoopRun handler checks rest
              else msg :: consumeLoopRun handler checks rest

/-- C9: `close()` is idempotent — a second close succeeds and leaves the
very same stopped state — and it stops the consume loop at the next wait
boundary: a loop whose flag check observes the closed handle performs no
further handler invocation, the iteration in flight when close lands still
runs to completion (the flag is only read between iterations), and the
underlying connection is released. -/
theorem close_idempotent_and_stops_loop (h : TransportHandle)
    (handler : Json → Bool) (q : List (Option Json)) :
    closeTransport (closeTransport h) = closeTransport h
    ∧ (closeTransport h).running = false
    ∧ (closeTransport h).connOpen = false
    ∧ consumeLoopRun handler 0 q = []
    ∧ (∀ checks msg front, handler msg = true →
        consumeLoopRun handler (checks + 1) (front ++ [some msg])
          = msg :: consumeLoopRun handler checks front)
    ∧ (∀ checks msg front, handler msg = false →
        consumeLoopRun handler (checks + 1) (front ++ [some msg])
          = msg :: consumeLoopRun handler checks front) := by
  refine ⟨rfl, rfl, rfl, rfl, ?_, ?_⟩
  · intro checks msg front hmsg
    simp [consumeLoopRun, brPop_concat, hmsg]
  · intro checks msg front hmsg
    simp [consumeLoopRun, brPop_concat, hmsg]

end Observability
